import Mathlib

/-!
Shallow embedding of the PprofVisualizer server code, for the claims about
its command sanitization (server/services/pprof-cli.ts), its in-memory
storage layer (MemStorage), and the Express route handlers that call them.

Conventions of the embedding:
* JavaScript `number` identifiers and timestamps are `Nat`; subprocess exit
  codes (`number | null`) are `Option Int`.
* JavaScript values that may be `undefined`/`null` are `Option _`; JS
  truthiness on them is made explicit (`jsTruthy`, `jsTruthyStr`).
* A JS `Map<number, V>` is an insertion-ordered association list
  `List (Nat × V)`; `Map.set` replaces the entry for an existing key in
  place, `Map.delete` removes the entries with the key and reports whether
  one was present, `Map.prototype.values()` is the list of values in order.
* `async` route handlers and storage methods are pure state transformers
  `MemStorage → ... → result × MemStorage`; results of awaited external
  effects (the spawned subprocess, the pprof text parser) enter as
  parameters.
-/

/-! ## Data model (shared/schema.ts)

`Profile` is the stored (runtime) shape of a profiles row.  The SQL schema
declares `description` nullable and `isSaved` boolean not-null, but the
in-memory store holds plain JS objects and the PATCH handler's merge can
store `undefined` in both fields, so both are modelled as `Option`. -/

structure Profile where
  id : Nat
  filename : String
  originalFilename : String
  profileType : String
  size : Nat
  description : Option String
  metadata : String
  uploadedAt : Nat
  isSaved : Option Bool
  data : String
deriving DecidableEq

/-- `InsertProfile`: the zod-validated insert shape (schema minus `id` and
`uploadedAt`); after validation `isSaved` is a definite boolean. -/
structure InsertProfile where
  filename : String
  originalFilename : String
  profileType : String
  size : Nat
  description : Option String
  metadata : String
  isSaved : Bool
  data : String
deriving DecidableEq

structure Connection where
  id : Nat
  name : String
  url : String
  lastConnected : Option Nat
  isActive : Bool
deriving DecidableEq

structure InsertConnection where
  name : String
  url : String
  isActive : Bool
deriving DecidableEq

/-- JS truthiness of a possibly-undefined boolean (`undefined` is falsy). -/
def jsTruthy : Option Bool → Bool
  | none => false
  | some b => b

/-- JS truthiness of a possibly-undefined string (`undefined` and the empty
string are falsy). -/
def jsTruthyStr : Option String → Bool
  | none => false
  | some s => s != ""

/-! ## JS `Map<number, V>` -/

/-- `Map.prototype.get`. -/
def mapGet (m : List (Nat × α)) (k : Nat) : Option α :=
  (m.find? (fun kv => kv.1 == k)).map (fun kv => kv.2)

/-- `Map.prototype.set`: update the entry for an existing key in place,
otherwise append at the end (insertion order). -/
def mapSet : List (Nat × α) → Nat → α → List (Nat × α)
  | [], k, v => [(k, v)]
  | kv :: rest, k, v =>
      if kv.1 = k then (k, v) :: rest else kv :: mapSet rest k v

/-- `Map.prototype.has`. -/
def mapHas (m : List (Nat × α)) (k : Nat) : Bool :=
  m.any (fun kv => kv.1 == k)

/-- `Map.prototype.delete`: the map without the key's entries (a JS map never
holds two entries with one key, so removing all of them is the same), paired
with whether an entry was present (the returned boolean). -/
def mapDelete (m : List (Nat × α)) (k : Nat) : List (Nat × α) × Bool :=
  (m.filter (fun kv => kv.1 != k), mapHas m k)

/-! ## PprofCli (server/services/pprof-cli.ts) -/

/-- The result shape `runCommand` resolves with: collected stdout (a Buffer,
modelled as a string), the exit code (`number | null`), and an optional
error message. -/
structure CommandResult where
  output : String
  exitCode : Option Int
  error : Option String
deriving DecidableEq

/-- The allow-list in `sanitizeCommand`. -/
def allowedCommands : List String := ["go", "pprof", "go-torch"]

/-- JS `\s`-ish whitespace, for `String.prototype.trim`. -/
def isJsWhitespace (c : Char) : Bool :=
  c == ' ' || c == '\t' || c == '\n' || c == '\r' || c == '\x0b' || c == '\x0c'

/-- `String.prototype.trim`. -/
def jsTrim (l : List Char) : List Char :=
  ((l.dropWhile isJsWhitespace).reverse.dropWhile isJsWhitespace).reverse

/-- `command.split(' ')[0].trim()`: only element 0 of the split is used, and
it is the longest prefix with no space. -/
def baseToken (command : String) : String :=
  String.mk (jsTrim (command.data.takeWhile (fun c => c != ' ')))

/-- `PprofCli.sanitizeCommand`: returns the base command, or throws
(`Except.error` carries the `Error`'s message). -/
def sanitizeCommand (command : String) : Except String String :=
  let baseCommand := baseToken command
  if allowedCommands.contains baseCommand then
    Except.ok baseCommand
  else
    Except.error ("Command not allowed: " ++ baseCommand)

/-- The character class of `arg.replace(/[;&|"'`$(){}[\]<>]/g, '')`. -/
def shellMetaChars : List Char :=
  [';', '&', '|', '\x22', '\x27', '\x60', '$', '(', ')', '\x7b', '\x7d',
   '[', ']', '<', '>']

def isShellMeta (c : Char) : Bool := shellMetaChars.contains c

/-- The global single-character-class replace with the empty string deletes
every occurrence and keeps everything else. -/
def removeShellMeta : List Char → List Char
  | [] => []
  | c :: cs =>
      if isShellMeta c then removeShellMeta cs else c :: removeShellMeta cs

/-- `PprofCli.sanitizeArgument`. -/
def sanitizeArgument (arg : String) : String :=
  String.mk (removeShellMeta arg.data)

/-- What `PprofCli.runCommand` decides synchronously, before any subprocess
event fires: either `spawn` is reached with a sanitized command and
arguments, or the thrown sanitization error is caught and the promise is
resolved (with an empty buffer, exit code 1 and the error message) without
any subprocess being spawned. -/
inductive RunCommandStart where
  | spawned (command : String) (args : List String)
  | resolvedWithoutSpawn (result : CommandResult)
deriving DecidableEq

def runCommandStart (command : String) (args : List String) : RunCommandStart :=
  match sanitizeCommand command with
  | Except.ok c => RunCommandStart.spawned c (args.map sanitizeArgument)
  | Except.error msg => RunCommandStart.resolvedWithoutSpawn ⟨"", some 1, some msg⟩

/-! ## MemStorage (server/storage.ts) -/

structure MemStorage where
  profiles : List (Nat × Profile)
  connections : List (Nat × Connection)
  profileCurrentId : Nat
  connectionCurrentId : Nat
deriving DecidableEq

/-- The constructor: empty maps, both id counters start at 1. -/
def MemStorage.init : MemStorage := ⟨[], [], 1, 1⟩

def MemStorage.getProfile (s : MemStorage) (id : Nat) : Option Profile :=
  mapGet s.profiles id

def MemStorage.getConnection (s : MemStorage) (id : Nat) : Option Connection :=
  mapGet s.connections id

/-- `Array.from(this.profiles.values())`. -/
def profileValues (s : MemStorage) : List Profile :=
  s.profiles.map (fun kv => kv.2)

/-- Insert into a list already sorted by `uploadedAt` descending, i.e. the
order `.sort((a, b) => b.uploadedAt - a.uploadedAt)` produces. -/
def insertByUploadedDesc (p : Profile) : List Profile → List Profile
  | [] => [p]
  | q :: rest =>
      if q.uploadedAt ≤ p.uploadedAt then p :: q :: rest
      else q :: insertByUploadedDesc p rest

def sortByUploadedDesc (l : List Profile) : List Profile :=
  l.foldr insertByUploadedDesc []

def MemStorage.getProfiles (s : MemStorage) : List Profile :=
  sortByUploadedDesc (profileValues s)

def MemStorage.getSavedProfiles (s : MemStorage) : List Profile :=
  sortByUploadedDesc ((profileValues s).filter (fun p => jsTruthy p.isSaved))

/-- `getRecentProfiles(limit)`; `.slice(0, limit)` is `take`. -/
def MemStorage.getRecentProfiles (s : MemStorage) (limit : Nat) : List Profile :=
  (sortByUploadedDesc (profileValues s)).take limit

/-- `getRecentProfiles()` with the default parameter `limit = 10`. -/
def MemStorage.getRecentProfilesDefault (s : MemStorage) : List Profile :=
  s.getRecentProfiles 10

/-- `createProfile`: take the current id, bump the counter, store the insert
shape plus `id` and `uploadedAt := now` (`new Date()` at call time). -/
def MemStorage.createProfile (s : MemStorage) (ins : InsertProfile) (now : Nat) :
    Profile × MemStorage :=
  let id := s.profileCurrentId
  let profile : Profile :=
    ⟨id, ins.filename, ins.originalFilename, ins.profileType, ins.size,
     ins.description, ins.metadata, now, some ins.isSaved, ins.data⟩
  (profile,
   { s with profiles := mapSet s.profiles id profile, profileCurrentId := id + 1 })

/-- The `updates` object the PATCH handler passes to `updateProfile` — always
both keys, `undefined` when absent from the request body. -/
structure ProfileUpdates where
  description : Option String
  isSaved : Option Bool
deriving DecidableEq

/-- `updateProfile` as invoked with an `updates` object: `undefined` on a
missing id; otherwise `{ ...existingProfile, ...profileUpdate }` — the
spread copies both present keys, `undefined` values included. -/
def MemStorage.updateProfile (s : MemStorage) (id : Nat) (u : ProfileUpdates) :
    Option Profile × MemStorage :=
  match mapGet s.profiles id with
  | none => (none, s)
  | some existingProfile =>
      let updatedProfile : Profile :=
        { existingProfile with description := u.description, isSaved := u.isSaved }
      (some updatedProfile,
       { s with profiles := mapSet s.profiles id updatedProfile })

/-- `deleteProfile`: `this.profiles.delete(id)` — the boolean result and the
updated store. -/
def MemStorage.deleteProfile (s : MemStorage) (id : Nat) : Bool × MemStorage :=
  let r := mapDelete s.profiles id
  (r.2, { s with profiles := r.1 })

/-- `createConnection`: current id, bumped counter, `lastConnected: null`. -/
def MemStorage.createConnection (s : MemStorage) (ins : InsertConnection) :
    Connection × MemStorage :=
  let id := s.connectionCurrentId
  let connection : Connection := ⟨id, ins.name, ins.url, none, ins.isActive⟩
  (connection,
   { s with connections := mapSet s.connections id connection,
            connectionCurrentId := id + 1 })

/-- The storage invariant every reachable `MemStorage` satisfies: every key
ever placed in a map was a value of the counter, so present keys are below
the current counter. -/
def StorageWF (s : MemStorage) : Prop :=
  (∀ kv ∈ s.profiles, kv.1 < s.profileCurrentId) ∧
  (∀ kv ∈ s.connections, kv.1 < s.connectionCurrentId)

instance (s : MemStorage) : Decidable (StorageWF s) := by
  unfold StorageWF
  infer_instance

/-! ## Route handlers (server/routes.ts)

A handler's observable outcome is an `ApiResponse` (HTTP status plus the
relevant parts of the JSON body; fields that a given response does not set
are `none`) together with the storage state after the request. -/

structure ApiResponse where
  status : Nat
  message : Option String
  profile : Option Profile
  errorStr : Option String
  exitCodeVal : Option Int
deriving DecidableEq

/-- `PATCH /api/profiles/:id`: 404 when `getProfile` misses; otherwise build
`updates = { description: req.body.description, isSaved: req.body.isSaved }`
and answer with the record `updateProfile` returns. -/
def patchProfilesHandler (s : MemStorage) (id : Nat) (body : ProfileUpdates) :
    ApiResponse × MemStorage :=
  match s.getProfile id with
  | none => (⟨404, some "Profile not found", none, none, none⟩, s)
  | some _ =>
      let updates : ProfileUpdates := ⟨body.description, body.isSaved⟩
      let r := s.updateProfile id updates
      (⟨200, none, r.1, none, none⟩, r.2)

/-- `DELETE /api/profiles/:id`: run `deleteProfile`, then 404 if it reported
absence, else 204. -/
def deleteProfilesHandler (s : MemStorage) (id : Nat) : ApiResponse × MemStorage :=
  let r := s.deleteProfile id
  if r.1 then (⟨204, none, none, none, none⟩, r.2)
  else (⟨404, some "Profile not found", none, none, none⟩, r.2)

/-- The body of `POST /api/cli-profile` (fields may be absent). -/
structure CliRequest where
  command : Option String
  args : Option (List String)
  profileType : Option String
deriving DecidableEq

/-- Membership in the base64 alphabet (`A-Z`, `a-z`, `0-9`, `+`, `/`). -/
def isBase64Digit (c : Char) : Bool :=
  ('A' ≤ c && c ≤ 'Z') || ('a' ≤ c && c ≤ 'z') || ('0' ≤ c && c ≤ '9') ||
    c == '+' || c == '/'

/-- `Buffer.from(data, 'base64').length`: Node's forgiving decoder skips
characters outside the alphabet (padding and whitespace included) and turns
every 4 digits into 3 bytes, a trailing 2 or 3 digits into 1 or 2 bytes. -/
def base64DecodedLength (data : String) : Nat :=
  (data.data.filter isBase64Digit).length * 3 / 4

/-- `profileType || "cpu"` (JS `||`: `undefined` and `""` are falsy). -/
def profileTypeOrCpu : Option String → String
  | none => "cpu"
  | some t => if t == "" then "cpu" else t

/-- `` `${command} ${args?.join(' ') || ''}` ``. -/
def cliDescription (command : String) (args : Option (List String)) : String :=
  "Generated from CLI: " ++ command ++ " " ++
    (match args with
     | some l => String.intercalate " " l
     | none => "")

/-- `POST /api/cli-profile`: 400 "Command is required" when `!command`,
i.e. when the body's command is absent or the empty string (both falsy in
JS), and `runCommand` is never reached; after `runCommand` resolves, 400
with the error string and exit code when `exitCode !== 0 || error`;
otherwise parse the output (the parser's `{ metadata, data }` result enters
as `parsedMetadata`/`parsedData`), build the profile record and store it.
`now` is `Date.now()`. -/
def cliProfileHandler (s : MemStorage) (req : CliRequest) (now : Nat)
    (run : CommandResult) (parsedMetadata : String) (parsedData : String) :
    ApiResponse × MemStorage :=
  match req.command with
  | none => (⟨400, some "Command is required", none, none, none⟩, s)
  | some command =>
      if command == "" then
        (⟨400, some "Command is required", none, none, none⟩, s)
      else if (run.exitCode != some 0) || jsTruthyStr run.error then
        (⟨400, some "Command execution failed", none, run.error, run.exitCode⟩, s)
      else
        let profileData : InsertProfile :=
          ⟨"cli_" ++ toString now ++ ".pprof",
           "cli_output.pprof",
           profileTypeOrCpu req.profileType,
           base64DecodedLength parsedData,
           some (cliDescription command req.args),
           parsedMetadata,
           false,
           parsedData⟩
        let r := s.createProfile profileData now
        (⟨201, none, some r.1, none, none⟩, r.2)

/-! ## Concrete sample data, used to instantiate the theorems -/

def sampleProfile : Profile :=
  ⟨1, "pprof_100_cpu.pprof", "cpu.pprof", "cpu", 128, some "first capture",
   "duration: 10s", 5, some true, "QUFBQQ=="⟩

def sampleProfile2 : Profile :=
  ⟨2, "pprof_200_heap.pprof", "heap.pprof", "heap", 64, none,
   "inuse_space", 3, some false, "QkJCQg=="⟩

def sampleStore : MemStorage :=
  ⟨[(1, sampleProfile), (2, sampleProfile2)], [], 3, 1⟩

def sampleInsert : InsertProfile :=
  ⟨"pprof_300_block.pprof", "block.pprof", "block", 32, none,
   "contention", false, "Q0NDQw=="⟩

def sampleInsertConnection : InsertConnection :=
  ⟨"local app", "http://localhost:6060/debug/pprof", true⟩

/-! ## Lemmas about the map and sorting helpers -/

theorem mapGet_mapSet_self (m : List (Nat × α)) (k : Nat) (v : α) :
    mapGet (mapSet m k v) k = some v := by
  induction m with
  | nil => simp [mapSet, mapGet, List.find?]
  | cons kv rest ih =>
      by_cases h : kv.1 = k
      · simp [mapSet, mapGet, List.find?, h]
      · simpa [mapSet, mapGet, List.find?, h] using ih

theorem mapGet_eq_none (m : List (Nat × α)) (k : Nat)
    (h : ∀ kv ∈ m, kv.1 ≠ k) : mapGet m k = none := by
  induction m with
  | nil => rfl
  | cons kv rest ih =>
      have hk : (kv.1 == k) = false := by
        simpa using h kv (List.mem_cons_self kv rest)
      simp only [mapGet, List.find?, hk]
      exact ih (fun kv' h' => h kv' (List.mem_cons_of_mem kv h'))

theorem mapGet_some_mem (m : List (Nat × α)) (k : Nat) (v : α)
    (h : mapGet m k = some v) : (k, v) ∈ m := by
  induction m with
  | nil => simp [mapGet, List.find?] at h
  | cons kv rest ih =>
      by_cases hk : (kv.1 == k) = true
      · have hk1 : kv.1 = k := by simpa using hk
        have h2 : kv.2 = v := by
          simp only [mapGet, List.find?, hk] at h
          simpa using h
        have hkv : kv = (k, v) := by
          obtain ⟨k', v'⟩ := kv
          simp_all
        simp [hkv]
      · simp only [mapGet, List.find?, hk] at h
        exact List.mem_cons_of_mem kv (ih h)

theorem mem_mapSet (m : List (Nat × α)) (k : Nat) (v : α) (kv : Nat × α)
    (h : kv ∈ mapSet m k v) : kv = (k, v) ∨ kv ∈ m := by
  induction m with
  | nil => simpa [mapSet] using h
  | cons kv' rest ih =>
      by_cases hk : kv'.1 = k
      · rcases List.mem_cons.1 (by simpa [mapSet, hk] using h) with h' | h'
        · exact Or.inl h'
        · exact Or.inr (List.mem_cons_of_mem kv' h')
      · rcases List.mem_cons.1 (by simpa [mapSet, hk] using h) with h' | h'
        · exact Or.inr (by simp [h'])
        · rcases ih h' with h'' | h''
          · exact Or.inl h''
          · exact Or.inr (List.mem_cons_of_mem kv' h'')

theorem mapHas_filter_self (m : List (Nat × α)) (k : Nat) :
    mapHas (m.filter (fun kv => kv.1 != k)) k = false := by
  simp only [mapHas, List.any_eq_false]
  intro kv hkv
  have := List.of_mem_filter hkv
  simpa using this

theorem filter_ne_idem (m : List (Nat × α)) (k : Nat) :
    (m.filter (fun kv => kv.1 != k)).filter (fun kv => kv.1 != k) =
      m.filter (fun kv => kv.1 != k) := by
  induction m with
  | nil => rfl
  | cons kv rest ih =>
      by_cases h : (kv.1 != k) = true <;> simp [List.filter, h, ih]

theorem mem_insertByUploadedDesc (p q : Profile) (l : List Profile) :
    q ∈ insertByUploadedDesc p l ↔ q = p ∨ q ∈ l := by
  induction l with
  | nil => simp [insertByUploadedDesc]
  | cons r rest ih =>
      by_cases h : r.uploadedAt ≤ p.uploadedAt
      · simp [insertByUploadedDesc, h]
      · simp only [insertByUploadedDesc, if_neg h, List.mem_cons, ih]
        tauto

theorem mem_sortByUploadedDesc (q : Profile) (l : List Profile) :
    q ∈ sortByUploadedDesc l ↔ q ∈ l := by
  induction l with
  | nil => simp [sortByUploadedDesc]
  | cons r rest ih =>
      simp only [sortByUploadedDesc, List.foldr] at ih ⊢
      rw [mem_insertByUploadedDesc, ih, List.mem_cons]

theorem pairwise_insertByUploadedDesc (p : Profile) (l : List Profile)
    (h : l.Pairwise (fun a b => b.uploadedAt ≤ a.uploadedAt)) :
    (insertByUploadedDesc p l).Pairwise (fun a b => b.uploadedAt ≤ a.uploadedAt) := by
  induction l with
  | nil => simp [insertByUploadedDesc]
  | cons q rest ih =>
      rw [List.pairwise_cons] at h
      by_cases hle : q.uploadedAt ≤ p.uploadedAt
      · rw [insertByUploadedDesc, if_pos hle, List.pairwise_cons]
        refine ⟨?_, List.pairwise_cons.2 h⟩
        intro x hx
        rcases List.mem_cons.1 hx with rfl | hx'
        · exact hle
        · exact le_trans (h.1 x hx') hle
      · rw [insertByUploadedDesc, if_neg hle, List.pairwise_cons]
        refine ⟨?_, ih h.2⟩
        intro x hx
        rcases (mem_insertByUploadedDesc p x rest).1 hx with rfl | hx'
        · exact le_of_lt (lt_of_not_le hle)
        · exact h.1 x hx'

theorem pairwise_sortByUploadedDesc (l : List Profile) :
    (sortByUploadedDesc l).Pairwise (fun a b => b.uploadedAt ≤ a.uploadedAt) := by
  induction l with
  | nil => simp [sortByUploadedDesc]
  | cons r rest ih => exact pairwise_insertByUploadedDesc r _ ih

theorem length_insertByUploadedDesc (p : Profile) (l : List Profile) :
    (insertByUploadedDesc p l).length = l.length + 1 := by
  induction l with
  | nil => rfl
  | cons q rest ih =>
      by_cases h : q.uploadedAt ≤ p.uploadedAt <;>
        simp [insertByUploadedDesc, h, ih]

theorem length_sortByUploadedDesc (l : List Profile) :
    (sortByUploadedDesc l).length = l.length := by
  induction l with
  | nil => rfl
  | cons r rest ih =>
      simp only [sortByUploadedDesc, List.foldr] at ih ⊢
      rw [length_insertByUploadedDesc, ih, List.length_cons]

/-! ## Theorems for claims C1 and C2 -/

theorem removeShellMeta_eq_filter (l : List Char) :
    removeShellMeta l = l.filter (fun c => !(isShellMeta c)) := by
  induction l with
  | nil => rfl
  | cons c cs ih =>
      by_cases h : isShellMeta c = true <;>
        simp [removeShellMeta, List.filter, h, ih]

/-- C1: a command whose base token (the prefix before the first space,
trimmed) is not on the allow-list spawns no subprocess: `runCommand`
resolves with exit code 1 and the error `Command not allowed: <token>`;
for an allow-listed command only the base token is passed to `spawn`. -/
theorem runCommand_allowlist (command : String) (args : List String) :
    (baseToken command ∉ allowedCommands →
      runCommandStart command args =
        RunCommandStart.resolvedWithoutSpawn
          ⟨"", some 1, some ("Command not allowed: " ++ baseToken command)⟩) ∧
    (baseToken command ∈ allowedCommands →
      runCommandStart command args =
        RunCommandStart.spawned (baseToken command) (args.map sanitizeArgument)) := by
  constructor <;> intro h <;> simp [runCommandStart, sanitizeCommand, h]

theorem runCommand_allowlist_witness :
    runCommandStart "rm -rf /tmp" [] =
      RunCommandStart.resolvedWithoutSpawn
        ⟨"", some 1, some ("Command not allowed: " ++ baseToken "rm -rf /tmp")⟩ ∧
    runCommandStart "go tool pprof" ["-svg", "a;b"] =
      RunCommandStart.spawned (baseToken "go tool pprof")
        (["-svg", "a;b"].map sanitizeArgument) :=
  ⟨(runCommand_allowlist "rm -rf /tmp" []).1 (by decide),
   (runCommand_allowlist "go tool pprof" ["-svg", "a;b"]).2 (by decide)⟩

/-- C2: `sanitizeArgument` strips the shell metacharacters: no metacharacter
survives in the result, and the non-metacharacter characters of the input
are kept, in order (the result is exactly the filter of the input). -/
theorem sanitizeArgument_strips_meta (arg : String) :
    (∀ c ∈ (sanitizeArgument arg).data, isShellMeta c = false) ∧
    (sanitizeArgument arg).data = arg.data.filter (fun c => !(isShellMeta c)) := by
  refine ⟨?_, by simp [sanitizeArgument, removeShellMeta_eq_filter]⟩
  intro c hc
  simp only [sanitizeArgument, removeShellMeta_eq_filter] at hc
  simpa using (List.of_mem_filter hc)

theorem sanitizeArgument_strips_meta_witness :
    isShellMeta 'a' = false ∧
    (sanitizeArgument "a;(b)|c").data =
      "a;(b)|c".data.filter (fun c => !(isShellMeta c)) :=
  ⟨(sanitizeArgument_strips_meta "a;(b)|c").1 'a' (by decide),
   (sanitizeArgument_strips_meta "a;(b)|c").2⟩

/-! ## The storage invariant holds in the initial state and is preserved -/

theorem StorageWF_init : StorageWF MemStorage.init := by
  constructor <;> intro kv hkv <;> simp [MemStorage.init] at hkv

theorem createProfile_preserves_WF (s : MemStorage) (ins : InsertProfile)
    (now : Nat) (h : StorageWF s) : StorageWF (s.createProfile ins now).2 := by
  obtain ⟨hp, hc⟩ := h
  constructor
  · intro kv hkv
    simp only [MemStorage.createProfile] at hkv ⊢
    rcases mem_mapSet _ _ _ _ hkv with rfl | hkv'
    · exact Nat.lt_succ_self _
    · exact Nat.lt_succ_of_lt (hp kv hkv')
  · intro kv hkv
    exact hc kv hkv

theorem createConnection_preserves_WF (s : MemStorage) (ins : InsertConnection)
    (h : StorageWF s) : StorageWF (s.createConnection ins).2 := by
  obtain ⟨hp, hc⟩ := h
  constructor
  · intro kv hkv
    exact hp kv hkv
  · intro kv hkv
    simp only [MemStorage.createConnection] at hkv ⊢
    rcases mem_mapSet _ _ _ _ hkv with rfl | hkv'
    · exact Nat.lt_succ_self _
    · exact Nat.lt_succ_of_lt (hc kv hkv')

theorem updateProfile_preserves_WF (s : MemStorage) (id : Nat)
    (u : ProfileUpdates) (h : StorageWF s) : StorageWF (s.updateProfile id u).2 := by
  obtain ⟨hp, hc⟩ := h
  simp only [MemStorage.updateProfile]
  cases hget : mapGet s.profiles id with
  | none => exact ⟨hp, hc⟩
  | some existingProfile =>
      refine ⟨?_, hc⟩
      intro kv hkv
      simp only at hkv
      rcases mem_mapSet _ _ _ _ hkv with rfl | hkv'
      · exact hp (id, existingProfile) (mapGet_some_mem s.profiles id existingProfile hget)
      · exact hp kv hkv'

theorem deleteProfile_preserves_WF (s : MemStorage) (id : Nat)
    (h : StorageWF s) : StorageWF (s.deleteProfile id).2 := by
  obtain ⟨hp, hc⟩ := h
  refine ⟨?_, hc⟩
  intro kv hkv
  simp only [MemStorage.deleteProfile, mapDelete] at hkv
  exact hp kv (List.mem_of_mem_filter hkv)

/-! ## Theorems for claims C3, C4 and C5 -/

/-- C3: on a well-formed store, `createProfile` assigns an id no stored
profile has and one strictly greater than every stored profile's id, stores
the record, and defaults `uploadedAt` to the creation time; `createConnection`
likewise assigns a fresh id strictly above all stored connection ids. -/
theorem createProfile_fresh_id_and_timestamp (s : MemStorage)
    (ins : InsertProfile) (insC : InsertConnection) (now : Nat)
    (hwf : StorageWF s) :
    ((s.createProfile ins now).1.uploadedAt = now) ∧
    ((s.createProfile ins now).2.getProfile (s.createProfile ins now).1.id =
      some (s.createProfile ins now).1) ∧
    (s.getProfile (s.createProfile ins now).1.id = none) ∧
    (∀ kv ∈ s.profiles, kv.1 < (s.createProfile ins now).1.id) ∧
    (s.getConnection (s.createConnection insC).1.id = none) ∧
    (∀ kv ∈ s.connections, kv.1 < (s.createConnection insC).1.id) := by
  obtain ⟨hp, hc⟩ := hwf
  refine ⟨rfl, ?_, ?_, ?_, ?_, ?_⟩
  · simp only [MemStorage.createProfile, MemStorage.getProfile]
    exact mapGet_mapSet_self _ _ _
  · simp only [MemStorage.createProfile, MemStorage.getProfile]
    exact mapGet_eq_none _ _ (fun kv hkv => Nat.ne_of_lt (hp kv hkv))
  · simpa [MemStorage.createProfile] using hp
  · simp only [MemStorage.createConnection, MemStorage.getConnection]
    exact mapGet_eq_none _ _ (fun kv hkv => Nat.ne_of_lt (hc kv hkv))
  · simpa [MemStorage.createConnection] using hc

theorem createProfile_fresh_id_and_timestamp_witness :
    ((sampleStore.createProfile sampleInsert 7).1.uploadedAt = 7) ∧
    (sampleStore.getProfile (sampleStore.createProfile sampleInsert 7).1.id = none) ∧
    ((1 : Nat) < (sampleStore.createProfile sampleInsert 7).1.id) ∧
    (sampleStore.getConnection
      (sampleStore.createConnection sampleInsertConnection).1.id = none) := by
  have h := createProfile_fresh_id_and_timestamp sampleStore sampleInsert
    sampleInsertConnection 7 (by decide)
  exact ⟨h.1, h.2.2.1, h.2.2.2.1 (1, sampleProfile) (by decide), h.2.2.2.2.1⟩

/-- C4: `getRecentProfiles` returns stored profiles in `uploadedAt`-descending
order, at most `limit` of them (all of them when the store has at most
`limit`), and the default limit is 10. -/
theorem getRecentProfiles_sorted_and_limited (s : MemStorage) (n : Nat) :
    ((s.getRecentProfiles n).length ≤ n) ∧
    ((s.getRecentProfiles n).Pairwise (fun a b => b.uploadedAt ≤ a.uploadedAt)) ∧
    (∀ p ∈ s.getRecentProfiles n, p ∈ profileValues s) ∧
    ((profileValues s).length ≤ n →
      ∀ p ∈ profileValues s, p ∈ s.getRecentProfiles n) ∧
    ((s.getRecentProfilesDefault).length ≤ 10) := by
  refine ⟨List.length_take_le n _, ?_, ?_, ?_, List.length_take_le 10 _⟩
  · exact List.Pairwise.sublist (List.take_sublist n _) (pairwise_sortByUploadedDesc _)
  · intro p hp
    exact (mem_sortByUploadedDesc p _).1 (List.mem_of_mem_take hp)
  · intro hlen p hp
    have : (sortByUploadedDesc (profileValues s)).take n = sortByUploadedDesc (profileValues s) := by
      apply List.take_of_length_le
      rw [length_sortByUploadedDesc]
      exact hlen
    simp only [MemStorage.getRecentProfiles, this]
    exact (mem_sortByUploadedDesc p _).2 hp

theorem getRecentProfiles_sorted_and_limited_witness :
    sampleProfile ∈ sampleStore.getRecentProfiles 2 := by
  have h := getRecentProfiles_sorted_and_limited sampleStore 2
  exact h.2.2.2.1 (by decide) sampleProfile (by decide)

/-- C5: `getSavedProfiles` returns exactly the stored profiles whose saved
flag is (truthily) set. -/
theorem getSavedProfiles_iff_saved (s : MemStorage) (p : Profile) :
    (p ∈ s.getSavedProfiles → jsTruthy p.isSaved = true) ∧
    (p ∈ profileValues s → jsTruthy p.isSaved = true → p ∈ s.getSavedProfiles) := by
  constructor
  · intro hp
    have hmem := (mem_sortByUploadedDesc p _).1 hp
    exact (List.mem_filter.1 hmem).2
  · intro hp hsaved
    exact (mem_sortByUploadedDesc p _).2 (List.mem_filter.2 ⟨hp, hsaved⟩)

theorem getSavedProfiles_iff_saved_witness :
    jsTruthy sampleProfile.isSaved = true :=
  (getSavedProfiles_iff_saved sampleStore sampleProfile).1
    ((getSavedProfiles_iff_saved sampleStore sampleProfile).2 (by decide) (by decide))

/-! ## Theorems for claims C6 and C7 -/

/-- C6: updating an id that is not in the store returns the "not found"
signal — `updateProfile` answers `undefined` and leaves the store unchanged,
and the PATCH handler answers 404 "Profile not found". -/
theorem update_missing_id_not_found (s : MemStorage) (id : Nat)
    (u : ProfileUpdates) (h : s.getProfile id = none) :
    s.updateProfile id u = (none, s) ∧
    patchProfilesHandler s id u =
      (⟨404, some "Profile not found", none, none, none⟩, s) := by
  have h' : mapGet s.profiles id = none := h
  constructor
  · simp [MemStorage.updateProfile, h']
  · simp [patchProfilesHandler, h]

theorem update_missing_id_not_found_witness :
    MemStorage.init.updateProfile 1 ⟨some "d", some true⟩ = (none, MemStorage.init) ∧
    patchProfilesHandler MemStorage.init 1 ⟨some "d", some true⟩ =
      (⟨404, some "Profile not found", none, none, none⟩, MemStorage.init) :=
  update_missing_id_not_found MemStorage.init 1 ⟨some "d", some true⟩ (by decide)

/-- C7: after a first `deleteProfile` on a present id returns `true`, a
second `deleteProfile` of the same id returns `false` and leaves the store
unchanged, and the DELETE handler maps that second delete to a 404. -/
theorem delete_twice_reports_absence (s : MemStorage) (id : Nat)
    (h : (s.deleteProfile id).1 = true) :
    ((s.deleteProfile id).1 = true) ∧
    ((((s.deleteProfile id).2).deleteProfile id).1 = false) ∧
    ((((s.deleteProfile id).2).deleteProfile id).2 = (s.deleteProfile id).2) ∧
    (deleteProfilesHandler (s.deleteProfile id).2 id =
      (⟨404, some "Profile not found", none, none, none⟩, (s.deleteProfile id).2)) := by
  have h2 : (((s.deleteProfile id).2).deleteProfile id).1 = false := by
    simp only [MemStorage.deleteProfile, mapDelete]
    exact mapHas_filter_self _ _
  have h3 : (((s.deleteProfile id).2).deleteProfile id).2 = (s.deleteProfile id).2 := by
    simp [MemStorage.deleteProfile, mapDelete, filter_ne_idem]
  refine ⟨h, h2, h3, ?_⟩
  simp [deleteProfilesHandler, h2, h3]

theorem delete_twice_reports_absence_witness :
    ((sampleStore.deleteProfile 1).1 = true) ∧
    ((((sampleStore.deleteProfile 1).2).deleteProfile 1).1 = false) ∧
    ((((sampleStore.deleteProfile 1).2).deleteProfile 1).2 =
      (sampleStore.deleteProfile 1).2) ∧
    (deleteProfilesHandler (sampleStore.deleteProfile 1).2 1 =
      (⟨404, some "Profile not found", none, none, none⟩,
       (sampleStore.deleteProfile 1).2)) :=
  delete_twice_reports_absence sampleStore 1 (by decide)

/-! ## Theorem for claim C8 -/

/-- C8: when the request carries a (truthy, hence non-empty) command and it
resolves with a non-zero (or null) exit code or a non-empty stderr string,
`POST /api/cli-profile` answers 400 with the error string and the exit
code, and stores nothing. -/
theorem cliProfile_surfaces_command_failure (s : MemStorage) (req : CliRequest)
    (now : Nat) (run : CommandResult) (parsedMetadata parsedData : String)
    (c : String) (hc : req.command = some c) (hne0 : c ≠ "")
    (herr : run.exitCode ≠ some 0 ∨ ∃ e, run.error = some e ∧ e ≠ "") :
    cliProfileHandler s req now run parsedMetadata parsedData =
      (⟨400, some "Command execution failed", none, run.error, run.exitCode⟩, s) := by
  have hcempty : (c == "") = false := by simpa using hne0
  have hcond : ((run.exitCode != some 0) || jsTruthyStr run.error) = true := by
    rcases herr with h | ⟨e, he, hne⟩
    · simp [Bool.or_eq_true, bne_iff_ne, h]
    · simp [Bool.or_eq_true, he, jsTruthyStr, hne]
  simp [cliProfileHandler, hc, hcempty, hcond]

theorem cliProfile_surfaces_command_failure_witness :
    cliProfileHandler MemStorage.init ⟨some "go tool pprof", none, none⟩ 0
        ⟨"", some 1, some "exit status 1"⟩ "" "" =
      (⟨400, some "Command execution failed", none, some "exit status 1", some 1⟩,
       MemStorage.init) :=
  cliProfile_surfaces_command_failure MemStorage.init
    ⟨some "go tool pprof", none, none⟩ 0 ⟨"", some 1, some "exit status 1"⟩ "" ""
    "go tool pprof" rfl (by decide) (Or.inl (by decide))

/-! ## Theorems for claims C9 and C10 -/

/-- C9: a PATCH on an existing profile leaves every stored field other than
`description` and `isSaved` unchanged. -/
theorem patch_preserves_other_fields (s : MemStorage) (id : Nat)
    (body : ProfileUpdates) (p : Profile) (h : s.getProfile id = some p) :
    ∃ q, ((patchProfilesHandler s id body).2).getProfile id = some q ∧
      q.id = p.id ∧ q.filename = p.filename ∧
      q.originalFilename = p.originalFilename ∧
      q.profileType = p.profileType ∧ q.size = p.size ∧
      q.metadata = p.metadata ∧ q.uploadedAt = p.uploadedAt ∧
      q.data = p.data := by
  have h' : mapGet s.profiles id = some p := h
  refine ⟨{ p with description := body.description, isSaved := body.isSaved },
    ?_, rfl, rfl, rfl, rfl, rfl, rfl, rfl, rfl⟩
  simp only [patchProfilesHandler, MemStorage.getProfile, MemStorage.updateProfile, h']
  exact mapGet_mapSet_self _ _ _

theorem patch_preserves_other_fields_witness :
    ∃ q, ((patchProfilesHandler sampleStore 1 ⟨none, some false⟩).2).getProfile 1 =
        some q ∧
      q.id = sampleProfile.id ∧ q.filename = sampleProfile.filename ∧
      q.originalFilename = sampleProfile.originalFilename ∧
      q.profileType = sampleProfile.profileType ∧ q.size = sampleProfile.size ∧
      q.metadata = sampleProfile.metadata ∧
      q.uploadedAt = sampleProfile.uploadedAt ∧
      q.data = sampleProfile.data :=
  patch_preserves_other_fields sampleStore 1 ⟨none, some false⟩ sampleProfile
    (by decide)

/-- C10: the PATCH handler always sends both `description` and `isSaved` in
its updates object, and the spread merge copies present-but-`undefined`
keys, so a body that omits a field overwrites the stored field with
`undefined` instead of keeping its previous value: the stored record's
`description` and `isSaved` always become exactly the body's values. -/
theorem patch_overwrites_omitted_fields (s : MemStorage) (id : Nat)
    (body : ProfileUpdates) (p : Profile) (h : s.getProfile id = some p) :
    ∃ q, ((patchProfilesHandler s id body).2).getProfile id = some q ∧
      q.description = body.description ∧ q.isSaved = body.isSaved := by
  have h' : mapGet s.profiles id = some p := h
  refine ⟨{ p with description := body.description, isSaved := body.isSaved },
    ?_, rfl, rfl⟩
  simp only [patchProfilesHandler, MemStorage.getProfile, MemStorage.updateProfile, h']
  exact mapGet_mapSet_self _ _ _

theorem patch_overwrites_omitted_fields_witness :
    ∃ q, ((patchProfilesHandler sampleStore 1 ⟨none, none⟩).2).getProfile 1 =
        some q ∧
      q.description = none ∧ q.isSaved = none :=
  patch_overwrites_omitted_fields sampleStore 1 ⟨none, none⟩ sampleProfile
    (by decide)
